import Mathlib

/-!
Shallow embedding of the cuckoo-hash set repository (serial backend in
`src/serial-cuckoo.h`, concurrent backend's resize in
`src/concurrent-cuckoo.h`).  Keys are modelled as `Nat`; the C++ template
hash `std::hash<T>` is an arbitrary function `hashFn : Nat → Nat` carried in
the state, and the successive outputs of `std::rand()` are modelled by a
stream `rng : Nat → Nat` read at `rngIdx`.  The mutually recursive
`add`/`resize` pair of the C++ source is not structurally terminating
(a nested resize is suppressed by the `resizing` flag and `add` retries
forever), so the embedding is fuelled: `none` means the fuel ran out.
`int` arithmetic of the source (`capacity *= 2`, `initialCapacity / 2`)
is carried out on `Nat`; overflow of 32-bit `int` is not modelled.
-/

namespace Cuckoo

/-- State of a `CuckooSequentialSet<T>` object: the fields `capacity`,
`maxDisplacements`, `resizing`, `salt1`, `salt2` and the two rows of
`table` (a slot is `none` for a null `Entry*`). -/
structure CuckooState where
  capacity : Nat
  maxDisplacements : Nat
  resizing : Bool
  salt1 : Nat
  salt2 : Nat
  t0 : List (Option Nat)
  t1 : List (Option Nat)
  hashFn : Nat → Nat
  rng : Nat → Nat
  rngIdx : Nat

/-- `hash(key, seed) = (std::hash<T>{}(key) ^ seed) % capacity`. -/
def hashIdx (s : CuckooState) (key seed : Nat) : Nat :=
  (s.hashFn key ^^^ seed) % s.capacity

/-- `hash1(key) = hash(key, salt1)`. -/
def hash1 (s : CuckooState) (key : Nat) : Nat := hashIdx s key s.salt1

/-- `hash2(key) = hash(key, salt2)`. -/
def hash2 (s : CuckooState) (key : Nat) : Nat := hashIdx s key s.salt2

/-- `contains`: check slot `table[0][hash1(v)]` then slot `table[1][hash2(v)]`. -/
def contains (s : CuckooState) (value : Nat) : Bool :=
  (s.t0.getD (hash1 s value) none == some value) ||
  (s.t1.getD (hash2 s value) none == some value)

/-- The displacement loop of `add` (`for (int i = 0; i < maxDisplacements; ++i)`),
with the floating entry `temp`.  Each iteration swaps `temp` into
`table[0][hash1(temp)]` and, if an occupant was evicted, swaps that occupant
into `table[1][hash2(occupant)]`.  Returns `(none, s)` when the floating
entry was placed (the C++ `return true`), and `(some f, s)` when the bound
is exhausted with `f` still floating. -/
def displaceLoop : Nat → CuckooState → Nat → Option Nat × CuckooState
  | 0, s, temp => (some temp, s)
  | n + 1, s, temp =>
    match s.t0.getD (hash1 s temp) none with
    | none => (none, { s with t0 := s.t0.set (hash1 s temp) (some temp) })
    | some k1 =>
      match s.t1.getD (hash2 s k1) none with
      | none =>
        (none, { s with t0 := s.t0.set (hash1 s temp) (some temp),
                        t1 := s.t1.set (hash2 s k1) (some k1) })
      | some k2 =>
        displaceLoop n
          { s with t0 := s.t0.set (hash1 s temp) (some temp),
                   t1 := s.t1.set (hash2 s k1) (some k1) } k2

/-- `remove(value)`: clear `table[0][hash1(value)]` if it holds `value`,
else clear `table[1][hash2(value)]` if it holds `value`, else no-op. -/
def remove (s : CuckooState) (value : Nat) : Bool × CuckooState :=
  let h1 := hash1 s value
  if s.t0.getD h1 none == some value then
    (true, { s with t0 := s.t0.set h1 none })
  else
    let h2 := hash2 s value
    if s.t1.getD h2 none == some value then
      (true, { s with t1 := s.t1.set h2 none })
    else
      (false, s)

/-- `size()`: count the non-null slots of both rows. -/
def size (s : CuckooState) : Nat :=
  s.t0.countP (fun o => o.isSome) + s.t1.countP (fun o => o.isSome)

/-- Marker for the mutually recursive group `add` / `resize` /
the re-adding loop inside `resize` of `CuckooSequentialSet`.  The C++
recursion nest (`add` calls `resize` calls `add` …) is run by the single
fuelled interpreter `run` below, structurally recursive on its fuel. -/
inductive Call where
  | addc (value : Nat)
  | resizec
  | rehashc (pending : List Nat)

/-- Fuelled interpreter for `CuckooSequentialSet::add` / `::resize`.
`Call.addc v` is `add(v)`: duplicate check via `contains`, then the
displacement loop; on exhaustion the floating entry is deleted
(`delete temp`), `resize()` runs, and the add is retried.
`Call.resizec` is `resize()`: early return when `resizing` is set;
otherwise double `capacity` and `maxDisplacements`, allocate fresh empty
rows, draw `salt1` and `salt2` from the next two `rand()` outputs, and
re-`add` every surviving entry (row 0 in index order, then row 1) —
that re-adding loop is `Call.rehashc`.  The Bool output is the result of
`add` (dummy `true` for the `void` calls).  `none` means out of fuel. -/
def run : Nat → Call → CuckooState → Option (Bool × CuckooState)
  | 0, _, _ => none
  | fuel + 1, Call.addc value, s =>
    if contains s value then some (false, s)
    else
      match displaceLoop s.maxDisplacements s value with
      | (none, s1) => some (true, s1)
      | (some _, s1) =>
        match run fuel Call.resizec s1 with
        | none => none
        | some (_, s2) => run fuel (Call.addc value) s2
  | fuel + 1, Call.resizec, s =>
    if s.resizing then some (true, s)
    else
      let s1 : CuckooState :=
        { s with
          resizing := true
          capacity := s.capacity * 2
          maxDisplacements := s.maxDisplacements * 2
          t0 := List.replicate (s.capacity * 2) none
          t1 := List.replicate (s.capacity * 2) none
          salt1 := s.rng s.rngIdx
          salt2 := s.rng (s.rngIdx + 1)
          rngIdx := s.rngIdx + 2 }
      match run fuel (Call.rehashc (s.t0.filterMap id ++ s.t1.filterMap id)) s1 with
      | none => none
      | some (_, s2) => some (true, { s2 with resizing := false })
  | _ + 1, Call.rehashc [], s => some (true, s)
  | fuel + 1, Call.rehashc (v :: rest), s =>
    match run fuel (Call.addc v) s with
    | none => none
    | some (_, s1) => run fuel (Call.rehashc rest) s1

/-- `add(value)` of `CuckooSequentialSet`, fuelled. -/
def addFuel (fuel : Nat) (s : CuckooState) (value : Nat) : Option (Bool × CuckooState) :=
  run fuel (Call.addc value) s

/-- `resize()` of `CuckooSequentialSet`, fuelled. -/
def resizeFuel (fuel : Nat) (s : CuckooState) : Option CuckooState :=
  (run fuel Call.resizec s).map Prod.snd

/-- `populate(list)`: add each element in order, return how many adds
returned `true` (fuelled through `addFuel`). -/
def populateFuel (fuel : Nat) : CuckooState → List Nat → Option (Nat × CuckooState)
  | s, [] => some (0, s)
  | s, v :: rest =>
    match addFuel fuel s v with
    | none => none
    | some (b, s1) =>
      match populateFuel fuel s1 rest with
      | none => none
      | some (n, s2) => some ((if b then 1 else 0) + n, s2)

/-- The constructor `CuckooSequentialSet(initialCapacity)`: `maxDisplacements
= initialCapacity / 2`, `salt1 = time`, `salt2 = time ^ 0x9e3779b9`, two
rows of null slots.  `timeSeed` models the `std::time(nullptr)` value. -/
def mkSet (initialCapacity timeSeed : Nat) (hashFn rng : Nat → Nat) : CuckooState :=
  { capacity := initialCapacity
    maxDisplacements := initialCapacity / 2
    resizing := false
    salt1 := timeSeed
    salt2 := timeSeed ^^^ 0x9e3779b9
    t0 := List.replicate initialCapacity none
    t1 := List.replicate initialCapacity none
    hashFn := hashFn
    rng := rng
    rngIdx := 0 }

/-- The per-entry placement loop of `CuckooConcurrentSet::resize`
(`for (int d = 0; d < maxDisplacements; ++d)` over the new tables):
swap the entry through `newTable[0]`/`newTable[1]`; returns
`(placed, newTable0, newTable1)`.  When the budget runs out the C++ code
executes `delete entry` — the entry is dropped, which `placed = false`
records. -/
def concInsertLoop (s : CuckooState) :
    Nat → Nat → List (Option Nat) → List (Option Nat) →
    Bool × List (Option Nat) × List (Option Nat)
  | 0, _, n0, n1 => (false, n0, n1)
  | d + 1, entry, n0, n1 =>
    let h1 := hash1 s entry
    match n0.getD h1 none with
    | none => (true, n0.set h1 (some entry), n1)
    | some e0 =>
      let n0a := n0.set h1 (some entry)
      let h2 := hash2 s e0
      match n1.getD h2 none with
      | none => (true, n0a, n1.set h2 (some e0))
      | some e1 => concInsertLoop s d e1 n0a (n1.set h2 (some e0))

/-- `CuckooConcurrentSet::resize` (single resizing thread): double
`capacity` and `maxDisplacements`, draw fresh salts from `rand()`, rehash
every surviving entry into the new tables with the doubled budget, deleting
any entry that cannot be placed, then install the new tables. -/
def concResize (s : CuckooState) : CuckooState :=
  let s1 : CuckooState :=
    { s with
      capacity := s.capacity * 2
      maxDisplacements := s.maxDisplacements * 2
      salt1 := s.rng s.rngIdx
      salt2 := s.rng (s.rngIdx + 1)
      rngIdx := s.rngIdx + 2 }
  let entries := s.t0.filterMap id ++ s.t1.filterMap id
  let start0 : List (Option Nat) := List.replicate s1.capacity none
  let start1 : List (Option Nat) := List.replicate s1.capacity none
  let final :=
    entries.foldl
      (fun acc v =>
        let r := concInsertLoop s1 s1.maxDisplacements v acc.1 acc.2
        (r.2.1, r.2.2))
      (start0, start1)
  { s1 with t0 := final.1, t1 := final.2 }

/-! ### Concrete instantiations used to exercise the code on explicit inputs -/

/-- A hash function for the C1 run: keys 1, 2, 3 hash to 0, 2, 4. -/
def hC1 : Nat → Nat := fun k => if k = 1 then 0 else if k = 2 then 2 else if k = 3 then 4 else 0

/-- `rand()` stream for the C1 run: 0, 1, 0, 1, …. -/
def rngC1 : Nat → Nat := fun i => i % 2

/-- Freshly constructed set, capacity 2 (`maxDisplacements = 1`), time seed 0. -/
def c1s0 : CuckooState := mkSet 2 0 hC1 rngC1

/-- A hash function for the C2 and C4 runs: 1 ↦ 21, 2 ↦ 6, 3 ↦ 12, 4 ↦ 18.
Keys 2, 3, 4 are congruent mod 6, so they collide in both tables after a
resize to capacity 6 with zero salts. -/
def hC2 : Nat → Nat :=
  fun k => if k = 1 then 21 else if k = 2 then 6 else if k = 3 then 12 else
           if k = 4 then 18 else 0

/-- `rand()` stream that always returns 0. -/
def rngZero : Nat → Nat := fun _ => 0

/-- Freshly constructed set, capacity 3 (`maxDisplacements = 1`), time seed 0. -/
def c2s0 : CuckooState := mkSet 3 0 hC2 rngZero

/-- Freshly constructed set of capacity 1, `rand()` stream constantly 7. -/
def c3s0 : CuckooState := mkSet 1 0 (fun _ => 0) (fun _ => 7)

/-- A well-formed capacity-2 state holding key 5 in its row-0 candidate
slot (`hash1(5) = (5 ^ 0) % 2 = 1`). -/
def c6demo : CuckooState :=
  { mkSet 2 0 (fun k => k) (fun _ => 0) with t0 := [none, some 5] }

/-- A reachable pre-resize state of the concurrent set (it is the table
produced by the C2 run right before its resize): keys 4, 2, 3 in place,
capacity 3, `maxDisplacements = 1`. -/
def c4pre : CuckooState :=
  { mkSet 3 0 hC2 rngZero with t0 := [some 4, none, none], t1 := [some 2, none, some 3] }

/-! ### Invariants of the data structure -/

/-- Slot `i` of row `tab` is either empty or holds a key `k` whose hash
index (`g k`) is exactly `i`. -/
def slotPlaced (tab : List (Option Nat)) (g : Nat → Nat) (i : Nat) : Bool :=
  match tab.getD i none with
  | none => true
  | some k => g k == i

/-- The key in slot `i` of row 0 (if any) does not also sit in its row-1
candidate slot. -/
def slotUnique (s : CuckooState) (i : Nat) : Bool :=
  match s.t0.getD i none with
  | none => true
  | some k => !(s.t1.getD (hash2 s k) none == some k)

/-- Well-formedness of a set state: positive capacity, both rows of length
`capacity`, every occupied slot at its hash position, and no key in both of
its candidate slots.  (Together the last two say each key occupies at most
one slot.)  Stated with bounded quantifiers so it is decidable on concrete
states. -/
def WF (s : CuckooState) : Prop :=
  0 < s.capacity ∧ s.t0.length = s.capacity ∧ s.t1.length = s.capacity ∧
  (∀ i, i < s.capacity →
    slotPlaced s.t0 (hash1 s) i = true ∧ slotPlaced s.t1 (hash2 s) i = true) ∧
  (∀ i, i < s.capacity → slotUnique s i = true)

instance decidableWF (s : CuckooState) : Decidable (WF s) := by
  unfold WF
  exact inferInstance

/-- Unbounded form of row-0 placement: `table[0]` holds `k` only at index
`hash1 k`. -/
def Placed0 (s : CuckooState) : Prop :=
  ∀ i k, s.t0.getD i none = some k → hash1 s k = i

/-- Unbounded form of row-1 placement. -/
def Placed1 (s : CuckooState) : Prop :=
  ∀ i k, s.t1.getD i none = some k → hash2 s k = i

/-- Unbounded form of cross-row uniqueness: a key sitting anywhere in row 0
does not also sit in its row-1 candidate slot. -/
def UniqC (s : CuckooState) : Prop :=
  ∀ i k, s.t0.getD i none = some k → s.t1.getD (hash2 s k) none ≠ some k

/-- The key `x` occurs in no slot of either row. -/
def NotIn (s : CuckooState) (x : Nat) : Prop :=
  (∀ i, s.t0.getD i none ≠ some x) ∧ (∀ i, s.t1.getD i none ≠ some x)

/-- `capacity` and `maxDisplacements` are both positive. -/
def PosCM (s : CuckooState) : Prop :=
  0 < s.capacity ∧ 0 < s.maxDisplacements

/-- Lift a state predicate over the fuelled result of `add`. -/
def optPairP (P : CuckooState → Prop) : Option (Bool × CuckooState) → Prop
  | none => True
  | some p => P p.2

/-- Lift a state predicate over the fuelled result of `resize`. -/
def optStateP (P : CuckooState → Prop) : Option CuckooState → Prop
  | none => True
  | some s => P s

/-- Lift a state predicate over the fuelled result of `populate`. -/
def optCntP (P : CuckooState → Prop) : Option (Nat × CuckooState) → Prop
  | none => True
  | some p => P p.2

/-- Conjunction of the well-formedness facts in their unbounded form, the
shape used by the preservation proofs. -/
def GoodS (s : CuckooState) : Prop :=
  0 < s.capacity ∧ s.t0.length = s.capacity ∧ s.t1.length = s.capacity ∧
  Placed0 s ∧ Placed1 s ∧ UniqC s

/-- All fields except the slot contents agree (lengths of the rows agree,
the rows themselves may differ). -/
def SameGeom (s s1 : CuckooState) : Prop :=
  s1.capacity = s.capacity ∧ s1.maxDisplacements = s.maxDisplacements ∧
  s1.resizing = s.resizing ∧ s1.salt1 = s.salt1 ∧ s1.salt2 = s.salt2 ∧
  s1.hashFn = s.hashFn ∧ s1.rng = s.rng ∧ s1.rngIdx = s.rngIdx ∧
  s1.t0.length = s.t0.length ∧ s1.t1.length = s.t1.length

/-- Modelled from the spec: the sequence of boolean results that the
successive `add` calls of `populate(list)` return, used to state that
`populate` "returns exactly the number of elements of list for which add
returned true". -/
def addResults (fuel : Nat) : CuckooState → List Nat → Option (List Bool × CuckooState)
  | s, [] => some ([], s)
  | s, v :: rest =>
    match addFuel fuel s v with
    | none => none
    | some (b, s1) =>
      match addResults fuel s1 rest with
      | none => none
      | some (bs, s2) => some (b :: bs, s2)

/-! ### Theorems for the claims settled by concrete runs -/

/-- C1: refuted on the code.  From the fresh capacity-2 set `c1s0` (whose
two adds of 1 and 2 both succeed), key 3 is absent, yet `add(3)` returns
`false` — the displacement chain exhausts while key 1 floats, `delete temp`
drops key 1, the resize rehashes the table (which already holds 3), and the
retried `add(3)` sees `contains(3)` and reports `false` although 3 was newly
inserted (it is present afterwards). -/
theorem add_new_key_can_return_false :
    (populateFuel 9 c1s0 [1, 2]).map Prod.fst = some 2 ∧
    (populateFuel 9 c1s0 [1, 2]).map (fun p => contains p.2 3) = some false ∧
    (populateFuel 9 c1s0 [1, 2]).map (fun p => (addFuel 9 p.2 3).map Prod.fst) =
      some (some false) ∧
    (populateFuel 9 c1s0 [1, 2]).map
        (fun p => (addFuel 9 p.2 3).map (fun q => contains q.2 3)) =
      some (some true) := by
  decide

/-- C2: refuted on the code.  On the fresh capacity-3 set `c2s0`, the adds
of 1, 2, 3 succeed and the add of 4 triggers a resize during whose rehash
the serial `add` exhausts its chain and `delete temp`s a surviving key:
3 successful adds and 0 removes, yet `size()` is 2 — a key was silently
lost, violating the single-threaded size law. -/
theorem size_law_violated :
    (populateFuel 20 c2s0 [1, 2, 3, 4]).map Prod.fst = some 3 ∧
    (populateFuel 20 c2s0 [1, 2, 3, 4]).map (fun p => size p.2) = some 2 := by
  decide

/-- C3: refuted on the code.  Construction guarantees `salt1 ≠ salt2`
(shown for `c3s0`), but `resize` draws both salts as two raw `rand()`
outputs: with a `rand()` stream returning 7 twice, the state after the
resize has `salt1 = salt2 = 7`. -/
theorem resize_salts_can_collide :
    (c3s0.salt1 = c3s0.salt2 → False) ∧
    (resizeFuel 3 c3s0).map CuckooState.salt1 = some 7 ∧
    (resizeFuel 3 c3s0).map CuckooState.salt2 = some 7 := by
  decide

/-- C4: refuted on the code.  `CuckooConcurrentSet::resize` on the state
`c4pre` (keys 4, 2, 3 present, all colliding under the fresh zero salts)
cannot place key 2 within the doubled budget and executes `delete entry`:
the resize completes normally — no fatal error, no diagnostic, no abort —
and key 2 has vanished (`size` drops from 3 to 2). -/
theorem conc_resize_silently_drops_key :
    contains c4pre 2 = true ∧
    size c4pre = 3 ∧
    size (concResize c4pre) = 2 ∧
    contains (concResize c4pre) 2 = false ∧
    contains (concResize c4pre) 3 = true ∧
    contains (concResize c4pre) 4 = true := by
  decide

/-- C9 counterexample: a set constructed with the positive initial capacity
1 has `maxDisplacements = initialCapacity / 2 = 0`, which is not positive. -/
theorem mkSet_one_has_zero_maxDisplacements :
    (mkSet 1 0 (fun _ => 0) (fun _ => 0)).maxDisplacements = 0 := by
  decide

/-! ### List-level helper lemmas -/

theorem getD_replicate (n i : Nat) :
    (List.replicate n (none : Option Nat)).getD i none = none := by
  by_cases h : i < n
  · rw [List.getD_eq_getElem _ _ (by simpa using h)]
    simp
  · exact List.getD_eq_default _ _ (by simpa using Nat.le_of_not_lt h)

theorem getD_set_self (l : List (Option Nat)) (i : Nat) (v : Option Nat)
    (h : i < l.length) : (l.set i v).getD i none = v := by
  rw [List.getD_eq_getElem _ _ (by simpa using h)]
  simp [List.getElem_set]

theorem getD_set_ne (l : List (Option Nat)) {i j : Nat} (v : Option Nat)
    (h : i ≠ j) : (l.set i v).getD j none = l.getD j none := by
  by_cases hj : j < l.length
  · rw [List.getD_eq_getElem _ _ (by simpa using hj),
      List.getD_eq_getElem _ _ (by simpa using hj)]
    simp [List.getElem_set, h]
  · rw [List.getD_eq_default _ _ (by simpa using Nat.le_of_not_lt hj),
      List.getD_eq_default _ _ (by simpa using Nat.le_of_not_lt hj)]

theorem lt_length_of_getD_some {l : List (Option Nat)} {i k : Nat}
    (h : l.getD i none = some k) : i < l.length := by
  by_contra hcon
  rw [List.getD_eq_default _ _ (Nat.le_of_not_lt hcon)] at h
  exact Option.noConfusion h

/-! ### Geometry preservation through the displacement loop -/

theorem sameGeom_refl (s : CuckooState) : SameGeom s s := by
  simp [SameGeom]

theorem sameGeom_trans {s s1 s2 : CuckooState}
    (h1 : SameGeom s s1) (h2 : SameGeom s1 s2) : SameGeom s s2 := by
  obtain ⟨a1, b1, c1, d1, e1, f1, g1, i1, j1, k1⟩ := h1
  obtain ⟨a2, b2, c2, d2, e2, f2, g2, i2, j2, k2⟩ := h2
  exact ⟨a2.trans a1, b2.trans b1, c2.trans c1, d2.trans d1, e2.trans e1,
    f2.trans f1, g2.trans g1, i2.trans i1, j2.trans j1, k2.trans k1⟩

theorem displaceLoop_geom :
    ∀ (n : Nat) (s : CuckooState) (temp : Nat),
      SameGeom s (displaceLoop n s temp).2 := by
  intro n
  induction n with
  | zero => intro s temp; exact sameGeom_refl s
  | succ n ih =>
    intro s temp
    simp only [displaceLoop]
    split
    · simp [SameGeom, List.length_set]
    · split
      · simp [SameGeom, List.length_set]
      · exact sameGeom_trans (by simp [SameGeom, List.length_set]) (ih _ _)

/-! ### Invariant preservation through one displacement step -/

theorem place0_inv (s : CuckooState) (x : Nat)
    (hcap : 0 < s.capacity) (hlen0 : s.t0.length = s.capacity)
    (hP0 : Placed0 s) (hP1 : Placed1 s) (hU : UniqC s) (hx : NotIn s x) :
    Placed0 { s with t0 := s.t0.set (hash1 s x) (some x) } ∧
    Placed1 { s with t0 := s.t0.set (hash1 s x) (some x) } ∧
    UniqC { s with t0 := s.t0.set (hash1 s x) (some x) } ∧
    ∀ k1, s.t0.getD (hash1 s x) none = some k1 →
      NotIn { s with t0 := s.t0.set (hash1 s x) (some x) } k1 := by
  have hbound : hash1 s x < s.t0.length := by
    rw [hlen0]; exact Nat.mod_lt _ hcap
  refine ⟨?_, ?_, ?_, ?_⟩
  · intro i k h
    by_cases hi : i = hash1 s x
    · subst hi
      rw [show ({ s with t0 := s.t0.set (hash1 s x) (some x) } :
          CuckooState).t0 = s.t0.set (hash1 s x) (some x) from rfl,
        getD_set_self _ _ _ hbound] at h
      cases h
      rfl
    · rw [show ({ s with t0 := s.t0.set (hash1 s x) (some x) } :
          CuckooState).t0 = s.t0.set (hash1 s x) (some x) from rfl,
        getD_set_ne _ _ (fun he => hi he.symm)] at h
      exact hP0 i k h
  · intro i k h
    exact hP1 i k h
  · intro i k h
    by_cases hi : i = hash1 s x
    · subst hi
      rw [show ({ s with t0 := s.t0.set (hash1 s x) (some x) } :
          CuckooState).t0 = s.t0.set (hash1 s x) (some x) from rfl,
        getD_set_self _ _ _ hbound] at h
      obtain rfl : x = k := Option.some_inj.mp h
      exact hx.2 (hash2 s x)
    · rw [show ({ s with t0 := s.t0.set (hash1 s x) (some x) } :
          CuckooState).t0 = s.t0.set (hash1 s x) (some x) from rfl,
        getD_set_ne _ _ (fun he => hi he.symm)] at h
      exact hU i k h
  · intro k1 hk1
    have hxk : k1 ≠ x := fun he => hx.1 (hash1 s x) (he ▸ hk1)
    have hh1 : hash1 s k1 = hash1 s x := hP0 _ _ hk1
    constructor
    · intro i hcon
      by_cases hi : i = hash1 s x
      · subst hi
        rw [show ({ s with t0 := s.t0.set (hash1 s x) (some x) } :
            CuckooState).t0 = s.t0.set (hash1 s x) (some x) from rfl,
          getD_set_self _ _ _ hbound] at hcon
        cases hcon
        exact hxk rfl
      · rw [show ({ s with t0 := s.t0.set (hash1 s x) (some x) } :
            CuckooState).t0 = s.t0.set (hash1 s x) (some x) from rfl,
          getD_set_ne _ _ (fun he => hi he.symm)] at hcon
        exact hi ((hP0 i k1 hcon).symm.trans hh1)
    · intro i hcon
      have hi : hash2 s k1 = i := hP1 i k1 hcon
      have := hU (hash1 s x) k1 hk1
      rw [hi] at this
      exact this hcon

theorem place1_inv (s : CuckooState) (y : Nat)
    (hcap : 0 < s.capacity) (hlen1 : s.t1.length = s.capacity)
    (hP0 : Placed0 s) (hP1 : Placed1 s) (hU : UniqC s) (hy : NotIn s y) :
    Placed0 { s with t1 := s.t1.set (hash2 s y) (some y) } ∧
    Placed1 { s with t1 := s.t1.set (hash2 s y) (some y) } ∧
    UniqC { s with t1 := s.t1.set (hash2 s y) (some y) } ∧
    ∀ k2, s.t1.getD (hash2 s y) none = some k2 →
      NotIn { s with t1 := s.t1.set (hash2 s y) (some y) } k2 := by
  have hbound : hash2 s y < s.t1.length := by
    rw [hlen1]; exact Nat.mod_lt _ hcap
  refine ⟨?_, ?_, ?_, ?_⟩
  · intro i k h
    exact hP0 i k h
  · intro i k h
    by_cases hi : i = hash2 s y
    · subst hi
      rw [show ({ s with t1 := s.t1.set (hash2 s y) (some y) } :
          CuckooState).t1 = s.t1.set (hash2 s y) (some y) from rfl,
        getD_set_self _ _ _ hbound] at h
      cases h
      rfl
    · rw [show ({ s with t1 := s.t1.set (hash2 s y) (some y) } :
          CuckooState).t1 = s.t1.set (hash2 s y) (some y) from rfl,
        getD_set_ne _ _ (fun he => hi he.symm)] at h
      exact hP1 i k h
  · intro i k h
    by_cases hk : hash2 s k = hash2 s y
    · have hky : k ≠ y := by
        intro he; subst he; exact hy.1 i h
      rw [show ({ s with t1 := s.t1.set (hash2 s y) (some y) } :
          CuckooState).t1 = s.t1.set (hash2 s y) (some y) from rfl]
      intro hcon
      rw [show hash2 { s with t1 := s.t1.set (hash2 s y) (some y) } k =
          hash2 s k from rfl, hk, getD_set_self _ _ _ hbound] at hcon
      exact hky (Option.some_inj.mp hcon.symm)
    · rw [show ({ s with t1 := s.t1.set (hash2 s y) (some y) } :
          CuckooState).t1 = s.t1.set (hash2 s y) (some y) from rfl]
      intro hcon
      rw [show hash2 { s with t1 := s.t1.set (hash2 s y) (some y) } k =
          hash2 s k from rfl, getD_set_ne _ _ (fun he => hk he.symm)] at hcon
      exact hU i k h hcon
  · intro k2 hk2
    have hyk : k2 ≠ y := fun he => hy.2 (hash2 s y) (he ▸ hk2)
    have hh2 : hash2 s k2 = hash2 s y := hP1 _ _ hk2
    constructor
    · intro i hcon
      have := hU i k2 hcon
      rw [hh2] at this
      exact this hk2
    · intro i hcon
      by_cases hi : i = hash2 s y
      · subst hi
        rw [show ({ s with t1 := s.t1.set (hash2 s y) (some y) } :
            CuckooState).t1 = s.t1.set (hash2 s y) (some y) from rfl,
          getD_set_self _ _ _ hbound] at hcon
        cases hcon
        exact hyk rfl
      · rw [show ({ s with t1 := s.t1.set (hash2 s y) (some y) } :
            CuckooState).t1 = s.t1.set (hash2 s y) (some y) from rfl,
          getD_set_ne _ _ (fun he => hi he.symm)] at hcon
        exact hi ((hP1 i k2 hcon).symm.trans hh2)

theorem displaceLoop_inv :
    ∀ (n : Nat) (s : CuckooState) (temp : Nat),
      0 < s.capacity → s.t0.length = s.capacity → s.t1.length = s.capacity →
      Placed0 s → Placed1 s → UniqC s → NotIn s temp →
      Placed0 (displaceLoop n s temp).2 ∧ Placed1 (displaceLoop n s temp).2 ∧
        UniqC (displaceLoop n s temp).2 := by
  intro n
  induction n with
  | zero =>
    intro s temp _ _ _ hP0 hP1 hU _
    exact ⟨hP0, hP1, hU⟩
  | succ n ih =>
    intro s temp hcap hl0 hl1 hP0 hP1 hU hni
    obtain ⟨hQ0, hQ1, hQ2, hEv⟩ := place0_inv s temp hcap hl0 hP0 hP1 hU hni
    cases h0 : s.t0.getD (hash1 s temp) none with
    | none =>
      have e : displaceLoop (n + 1) s temp =
          (none, { s with t0 := s.t0.set (hash1 s temp) (some temp) }) := by
        simp only [displaceLoop, h0]
      rw [e]
      exact ⟨hQ0, hQ1, hQ2⟩
    | some k1 =>
      have hev : NotIn { s with t0 := s.t0.set (hash1 s temp) (some temp) } k1 :=
        hEv k1 h0
      obtain ⟨hR0, hR1, hR2, hEv1⟩ :=
        place1_inv { s with t0 := s.t0.set (hash1 s temp) (some temp) } k1
          hcap hl1 hQ0 hQ1 hQ2 hev
      cases h1 : s.t1.getD (hash2 s k1) none with
      | none =>
        have e : displaceLoop (n + 1) s temp =
            (none, { s with t0 := s.t0.set (hash1 s temp) (some temp),
                            t1 := s.t1.set (hash2 s k1) (some k1) }) := by
          simp only [displaceLoop, h0, h1]
        rw [e]
        exact ⟨hR0, hR1, hR2⟩
      | some k2 =>
        have e : displaceLoop (n + 1) s temp =
            displaceLoop n { s with t0 := s.t0.set (hash1 s temp) (some temp),
                                    t1 := s.t1.set (hash2 s k1) (some k1) } k2 := by
          simp only [displaceLoop, h0, h1]
        rw [e]
        refine ih _ k2 hcap ?_ ?_ hR0 hR1 hR2 (hEv1 k2 h1)
        · simpa [List.length_set] using hl0
        · simpa [List.length_set] using hl1

theorem contains_eq_false_iff (s : CuckooState) (v : Nat) :
    contains s v = false ↔
      s.t0.getD (hash1 s v) none ≠ some v ∧ s.t1.getD (hash2 s v) none ≠ some v := by
  simp [contains]

theorem notIn_of_contains_false (s : CuckooState) (v : Nat)
    (hP0 : Placed0 s) (hP1 : Placed1 s) (hc : contains s v = false) :
    NotIn s v := by
  obtain ⟨h0, h1⟩ := (contains_eq_false_iff s v).mp hc
  constructor
  · intro i hcon
    have := hP0 i v hcon
    rw [this] at h0
    exact h0 hcon
  · intro i hcon
    have := hP1 i v hcon
    rw [this] at h1
    exact h1 hcon

theorem run_good :
    ∀ (fuel : Nat) (c : Call) (s : CuckooState),
      GoodS s → optPairP GoodS (run fuel c s) := by
  intro fuel
  induction fuel with
  | zero => intro c s _; exact trivial
  | succ fuel ih =>
    intro c s hG
    obtain ⟨hcap, hl0, hl1, hP0, hP1, hU⟩ := hG
    cases c with
    | addc v =>
      by_cases hc : contains s v
      · simp only [run, hc, if_true]
        exact ⟨hcap, hl0, hl1, hP0, hP1, hU⟩
      · have hcf : contains s v = false := by simpa using hc
        have hni : NotIn s v := notIn_of_contains_false s v hP0 hP1 hcf
        have hinv := displaceLoop_inv s.maxDisplacements s v hcap hl0 hl1 hP0 hP1 hU hni
        have hgeom := displaceLoop_geom s.maxDisplacements s v
        have hG1 : GoodS (displaceLoop s.maxDisplacements s v).2 := by
          obtain ⟨g1, _, _, _, _, _, _, _, g9, g10⟩ := hgeom
          exact ⟨g1 ▸ hcap, by rw [g9, hl0, g1], by rw [g10, hl1, g1],
            hinv.1, hinv.2.1, hinv.2.2⟩
        simp only [run, hcf, Bool.false_eq_true, if_false]
        cases hd : displaceLoop s.maxDisplacements s v with
        | mk r s1 =>
          rw [hd] at hG1
          cases r with
          | none =>
            exact hG1
          | some f =>
            show optPairP GoodS
              (match run fuel Call.resizec s1 with
                | none => none
                | some (_, s2) => run fuel (Call.addc v) s2)
            cases hr : run fuel Call.resizec s1 with
            | none => exact trivial
            | some p =>
              rcases p with ⟨b2, s2⟩
              have hG2 : GoodS s2 := by
                have := ih Call.resizec s1 hG1
                rw [hr] at this
                exact this
              exact ih (Call.addc v) s2 hG2
    | resizec =>
      by_cases hr : s.resizing
      · simp only [run, hr, if_true]
        exact ⟨hcap, hl0, hl1, hP0, hP1, hU⟩
      · have hrf : s.resizing = false := by simpa using hr
        simp only [run, hrf, Bool.false_eq_true, if_false]
        set s1 : CuckooState :=
          { s with
            resizing := true
            capacity := s.capacity * 2
            maxDisplacements := s.maxDisplacements * 2
            t0 := List.replicate (s.capacity * 2) none
            t1 := List.replicate (s.capacity * 2) none
            salt1 := s.rng s.rngIdx
            salt2 := s.rng (s.rngIdx + 1)
            rngIdx := s.rngIdx + 2 } with hs1
        have hG1 : GoodS s1 := by
          refine ⟨Nat.mul_pos hcap (by norm_num), by simp [hs1], by simp [hs1],
            ?_, ?_, ?_⟩
          · intro i k h
            rw [show s1.t0 = List.replicate (s.capacity * 2) none from rfl,
              getD_replicate] at h
            exact Option.noConfusion h
          · intro i k h
            rw [show s1.t1 = List.replicate (s.capacity * 2) none from rfl,
              getD_replicate] at h
            exact Option.noConfusion h
          · intro i k h
            rw [show s1.t0 = List.replicate (s.capacity * 2) none from rfl,
              getD_replicate] at h
            exact Option.noConfusion h
        cases hrr : run fuel (Call.rehashc (s.t0.filterMap id ++ s.t1.filterMap id)) s1 with
        | none => exact trivial
        | some p =>
          rcases p with ⟨b2, s2⟩
          have hG2 : GoodS s2 := by
            have := ih (Call.rehashc (s.t0.filterMap id ++ s.t1.filterMap id)) s1 hG1
            rw [hrr] at this
            exact this
          exact hG2
    | rehashc l =>
      cases l with
      | nil =>
        simp only [run]
        exact ⟨hcap, hl0, hl1, hP0, hP1, hU⟩
      | cons v rest =>
        simp only [run]
        cases ha : run fuel (Call.addc v) s with
        | none => exact trivial
        | some p =>
          rcases p with ⟨b, s1⟩
          have hG1 : GoodS s1 := by
            have := ih (Call.addc v) s ⟨hcap, hl0, hl1, hP0, hP1, hU⟩
            rw [ha] at this
            exact this
          exact ih (Call.rehashc rest) s1 hG1

theorem WF_iff_goodS (s : CuckooState) : WF s ↔ GoodS s := by
  constructor
  · rintro ⟨hcap, hl0, hl1, hpl, hun⟩
    refine ⟨hcap, hl0, hl1, ?_, ?_, ?_⟩
    · intro i k h
      have hi : i < s.capacity := hl0 ▸ lt_length_of_getD_some h
      have hp := (hpl i hi).1
      unfold slotPlaced at hp
      rw [h] at hp
      simpa using hp
    · intro i k h
      have hi : i < s.capacity := hl1 ▸ lt_length_of_getD_some h
      have hp := (hpl i hi).2
      unfold slotPlaced at hp
      rw [h] at hp
      simpa using hp
    · intro i k h
      have hi : i < s.capacity := hl0 ▸ lt_length_of_getD_some h
      have hp := hun i hi
      unfold slotUnique at hp
      rw [h] at hp
      simpa using hp
  · rintro ⟨hcap, hl0, hl1, hP0, hP1, hU⟩
    refine ⟨hcap, hl0, hl1, ?_, ?_⟩
    · intro i _
      constructor
      · unfold slotPlaced
        cases h : s.t0.getD i none with
        | none => rfl
        | some k => simpa using hP0 i k h
      · unfold slotPlaced
        cases h : s.t1.getD i none with
        | none => rfl
        | some k => simpa using hP1 i k h
    · intro i _
      unfold slotUnique
      cases h : s.t0.getD i none with
      | none => rfl
      | some k => simpa using hU i k h

theorem optPairP_WF_of_GoodS : ∀ o, optPairP GoodS o → optPairP WF o := by
  intro o h
  cases o with
  | none => exact trivial
  | some p => exact (WF_iff_goodS p.2).mpr h

theorem optCntP_WF_of_GoodS : ∀ o, optCntP GoodS o → optCntP WF o := by
  intro o h
  cases o with
  | none => exact trivial
  | some p => exact (WF_iff_goodS p.2).mpr h

theorem remove_good (s : CuckooState) (v : Nat) (hG : GoodS s) :
    GoodS (remove s v).2 := by
  obtain ⟨hcap, hl0, hl1, hP0, hP1, hU⟩ := hG
  simp only [remove]
  split
  · rename_i h0
    have h0e : s.t0.getD (hash1 s v) none = some v := by simpa using h0
    have hb : hash1 s v < s.t0.length := lt_length_of_getD_some h0e
    refine ⟨hcap, by simpa [List.length_set] using hl0,
      hl1, ?_, hP1, ?_⟩
    · intro i k h
      by_cases hi : i = hash1 s v
      · subst hi
        rw [show ({ s with t0 := s.t0.set (hash1 s v) none } :
            CuckooState).t0 = s.t0.set (hash1 s v) none from rfl,
          getD_set_self _ _ _ hb] at h
        exact Option.noConfusion h
      · rw [show ({ s with t0 := s.t0.set (hash1 s v) none } :
            CuckooState).t0 = s.t0.set (hash1 s v) none from rfl,
          getD_set_ne _ _ (fun he => hi he.symm)] at h
        exact hP0 i k h
    · intro i k h
      by_cases hi : i = hash1 s v
      · subst hi
        rw [show ({ s with t0 := s.t0.set (hash1 s v) none } :
            CuckooState).t0 = s.t0.set (hash1 s v) none from rfl,
          getD_set_self _ _ _ hb] at h
        exact Option.noConfusion h
      · rw [show ({ s with t0 := s.t0.set (hash1 s v) none } :
            CuckooState).t0 = s.t0.set (hash1 s v) none from rfl,
          getD_set_ne _ _ (fun he => hi he.symm)] at h
        exact hU i k h
  · split
    · rename_i h0 h1
      have h1e : s.t1.getD (hash2 s v) none = some v := by simpa using h1
      have hb : hash2 s v < s.t1.length := lt_length_of_getD_some h1e
      refine ⟨hcap, hl0, by simpa [List.length_set] using hl1, hP0, ?_, ?_⟩
      · intro i k h
        by_cases hi : i = hash2 s v
        · subst hi
          rw [show ({ s with t1 := s.t1.set (hash2 s v) none } :
              CuckooState).t1 = s.t1.set (hash2 s v) none from rfl,
            getD_set_self _ _ _ hb] at h
          exact Option.noConfusion h
        · rw [show ({ s with t1 := s.t1.set (hash2 s v) none } :
              CuckooState).t1 = s.t1.set (hash2 s v) none from rfl,
            getD_set_ne _ _ (fun he => hi he.symm)] at h
          exact hP1 i k h
      · intro i k h
        by_cases hi : hash2 s k = hash2 s v
        · rw [show ({ s with t1 := s.t1.set (hash2 s v) none } :
              CuckooState).t1 = s.t1.set (hash2 s v) none from rfl]
          rw [show hash2 { s with t1 := s.t1.set (hash2 s v) none } k =
              hash2 s k from rfl, hi, getD_set_self _ _ _ hb]
          exact fun he => Option.noConfusion he
        · rw [show ({ s with t1 := s.t1.set (hash2 s v) none } :
              CuckooState).t1 = s.t1.set (hash2 s v) none from rfl]
          rw [show hash2 { s with t1 := s.t1.set (hash2 s v) none } k =
              hash2 s k from rfl, getD_set_ne _ _ (fun he => hi he.symm)]
          exact hU i k h
    · exact ⟨hcap, hl0, hl1, hP0, hP1, hU⟩

theorem populate_good :
    ∀ (l : List Nat) (fuel : Nat) (s : CuckooState),
      GoodS s → optCntP GoodS (populateFuel fuel s l) := by
  intro l
  induction l with
  | nil => intro fuel s h; exact h
  | cons v rest ih =>
    intro fuel s hG
    simp only [populateFuel, addFuel]
    cases ha : run fuel (Call.addc v) s with
    | none => exact trivial
    | some p =>
      rcases p with ⟨b, s1⟩
      have hG1 : GoodS s1 := by
        have := run_good fuel (Call.addc v) s hG
        rw [ha] at this
        exact this
      have hrest := ih fuel s1 hG1
      show optCntP GoodS
        (match populateFuel fuel s1 rest with
          | none => none
          | some (n, s2) => some ((if b then 1 else 0) + n, s2))
      cases hp : populateFuel fuel s1 rest with
      | none => exact trivial
      | some q =>
        rw [hp] at hrest
        exact hrest

/-- C5: confirmed.  For any well-formed state (placement plus at-most-one
slot per key, the invariant satisfied by a freshly constructed set), the
first three conjuncts spell out what well-formedness says — row 0 holds `k`
only at `hash1(k)`, row 1 only at `hash2(k)`, and no key sits in both rows —
and the remaining conjuncts show that every completed `add` (including any
resize it triggers), `remove`, and `populate` yields a well-formed state
again.  `contains` does not modify the state. -/
theorem cuckoo_invariants_preserved (s : CuckooState) (hWF : WF s) :
    (∀ i k, s.t0.getD i none = some k → hash1 s k = i) ∧
    (∀ i k, s.t1.getD i none = some k → hash2 s k = i) ∧
    (∀ i j k, s.t0.getD i none = some k → s.t1.getD j none = some k → False) ∧
    (∀ fuel v, optPairP WF (addFuel fuel s v)) ∧
    (∀ v, WF (remove s v).2) ∧
    (∀ fuel l, optCntP WF (populateFuel fuel s l)) := by
  have hG := (WF_iff_goodS s).mp hWF
  obtain ⟨hcap, hl0, hl1, hP0, hP1, hU⟩ := hG
  refine ⟨hP0, hP1, ?_, ?_, ?_, ?_⟩
  · intro i j k h0 h1
    have hj : hash2 s k = j := hP1 j k h1
    have := hU i k h0
    rw [hj] at this
    exact this h1
  · intro fuel v
    exact optPairP_WF_of_GoodS _
      (run_good fuel (Call.addc v) s ⟨hcap, hl0, hl1, hP0, hP1, hU⟩)
  · intro v
    exact (WF_iff_goodS _).mpr (remove_good s v ⟨hcap, hl0, hl1, hP0, hP1, hU⟩)
  · intro fuel l
    exact optCntP_WF_of_GoodS _
      (populate_good l fuel s ⟨hcap, hl0, hl1, hP0, hP1, hU⟩)

/-- Witness for C5 at a concrete input: the fresh capacity-2 set is
well-formed, and the state after `add(5)` is well-formed again. -/
theorem cuckoo_invariants_preserved_witness :
    optPairP WF (addFuel 3 (mkSet 2 0 (fun k => k) (fun _ => 0)) 5) :=
  (cuckoo_invariants_preserved (mkSet 2 0 (fun k => k) (fun _ => 0))
    (by decide)).2.2.2.1 3 5

theorem run_pos :
    ∀ (fuel : Nat) (c : Call) (s : CuckooState),
      PosCM s → optPairP PosCM (run fuel c s) := by
  intro fuel
  induction fuel with
  | zero => intro c s _; exact trivial
  | succ fuel ih =>
    intro c s hP
    obtain ⟨hcap, hmd⟩ := hP
    cases c with
    | addc v =>
      by_cases hc : contains s v
      · simp only [run, hc, if_true]
        exact ⟨hcap, hmd⟩
      · have hcf : contains s v = false := by simpa using hc
        simp only [run, hcf, Bool.false_eq_true, if_false]
        have hgeom := displaceLoop_geom s.maxDisplacements s v
        cases hd : displaceLoop s.maxDisplacements s v with
        | mk r s1 =>
          rw [hd] at hgeom
          have hP1 : PosCM s1 := ⟨hgeom.1 ▸ hcap, hgeom.2.1 ▸ hmd⟩
          cases r with
          | none => exact hP1
          | some f =>
            show optPairP PosCM
              (match run fuel Call.resizec s1 with
                | none => none
                | some (_, s2) => run fuel (Call.addc v) s2)
            cases hr : run fuel Call.resizec s1 with
            | none => exact trivial
            | some p =>
              rcases p with ⟨b2, s2⟩
              have hP2 : PosCM s2 := by
                have := ih Call.resizec s1 hP1
                rw [hr] at this
                exact this
              exact ih (Call.addc v) s2 hP2
    | resizec =>
      by_cases hr : s.resizing
      · simp only [run, hr, if_true]
        exact ⟨hcap, hmd⟩
      · have hrf : s.resizing = false := by simpa using hr
        simp only [run, hrf, Bool.false_eq_true, if_false]
        have hP1 : PosCM
            { s with
              resizing := true
              capacity := s.capacity * 2
              maxDisplacements := s.maxDisplacements * 2
              t0 := List.replicate (s.capacity * 2) none
              t1 := List.replicate (s.capacity * 2) none
              salt1 := s.rng s.rngIdx
              salt2 := s.rng (s.rngIdx + 1)
              rngIdx := s.rngIdx + 2 } :=
          ⟨Nat.mul_pos hcap (by norm_num), Nat.mul_pos hmd (by norm_num)⟩
        cases hrr : run fuel (Call.rehashc (s.t0.filterMap id ++ s.t1.filterMap id)) _ with
        | none => exact trivial
        | some p =>
          rcases p with ⟨b2, s2⟩
          have hP2 : PosCM s2 := by
            have := ih (Call.rehashc (s.t0.filterMap id ++ s.t1.filterMap id)) _ hP1
            rw [hrr] at this
            exact this
          exact hP2
    | rehashc l =>
      cases l with
      | nil =>
        simp only [run]
        exact ⟨hcap, hmd⟩
      | cons v rest =>
        simp only [run]
        cases ha : run fuel (Call.addc v) s with
        | none => exact trivial
        | some p =>
          rcases p with ⟨b, s1⟩
          have hP1 : PosCM s1 := by
            have := ih (Call.addc v) s ⟨hcap, hmd⟩
            rw [ha] at this
            exact this
          exact ih (Call.rehashc rest) s1 hP1

theorem remove_pos (s : CuckooState) (v : Nat) (h : PosCM s) :
    PosCM (remove s v).2 := by
  simp only [remove]
  split
  · exact ⟨h.1, h.2⟩
  · split
    · exact ⟨h.1, h.2⟩
    · exact h

theorem populate_pos :
    ∀ (l : List Nat) (fuel : Nat) (s : CuckooState),
      PosCM s → optCntP PosCM (populateFuel fuel s l) := by
  intro l
  induction l with
  | nil => intro fuel s h; exact h
  | cons v rest ih =>
    intro fuel s hP
    simp only [populateFuel, addFuel]
    cases ha : run fuel (Call.addc v) s with
    | none => exact trivial
    | some p =>
      rcases p with ⟨b, s1⟩
      have hP1 : PosCM s1 := by
        have := run_pos fuel (Call.addc v) s hP
        rw [ha] at this
        exact this
      have hrest := ih fuel s1 hP1
      show optCntP PosCM
        (match populateFuel fuel s1 rest with
          | none => none
          | some (n, s2) => some ((if b then 1 else 0) + n, s2))
      cases hp : populateFuel fuel s1 rest with
      | none => exact trivial
      | some q =>
        rw [hp] at hrest
        exact hrest

/-- C9 amended: the constructor makes `maxDisplacements = initialCapacity/2`,
which is 0 (not positive) for initial capacity 1; for every initial capacity
`≥ 2` both fields are positive after construction, and positivity of both
fields is preserved by every operation (`resize` doubles them). -/
theorem capacity_maxDisplacements_positive :
    (∀ cap t : Nat, ∀ hF r : Nat → Nat, 2 ≤ cap → PosCM (mkSet cap t hF r)) ∧
    ∀ s : CuckooState, PosCM s →
      (∀ fuel v, optPairP PosCM (addFuel fuel s v)) ∧
      (∀ fuel, optStateP PosCM (resizeFuel fuel s)) ∧
      (∀ v, PosCM (remove s v).2) ∧
      (∀ fuel l, optCntP PosCM (populateFuel fuel s l)) := by
  constructor
  · intro cap t hF r hcap
    exact ⟨show 0 < cap by omega,
      show 0 < cap / 2 from Nat.div_pos hcap (by norm_num)⟩
  · intro s hP
    refine ⟨?_, ?_, ?_, ?_⟩
    · intro fuel v
      exact run_pos fuel (Call.addc v) s hP
    · intro fuel
      have := run_pos fuel Call.resizec s hP
      unfold resizeFuel
      cases hr : run fuel Call.resizec s with
      | none => exact trivial
      | some p =>
        rw [hr] at this
        exact this
    · intro v
      exact remove_pos s v hP
    · intro fuel l
      exact populate_pos l fuel s hP

/-- Witness for C9: with initial capacity 2 both fields of the fresh set are
positive, and they stay positive after `add(5)`. -/
theorem capacity_maxDisplacements_positive_witness :
    PosCM (mkSet 2 0 (fun k => k) (fun _ => 0)) ∧
    optPairP PosCM (addFuel 3 (mkSet 2 0 (fun k => k) (fun _ => 0)) 5) :=
  ⟨capacity_maxDisplacements_positive.1 2 0 (fun k => k) (fun _ => 0) (by norm_num),
    (capacity_maxDisplacements_positive.2 (mkSet 2 0 (fun k => k) (fun _ => 0))
      ⟨by decide, by decide⟩).1 3 5⟩

/-- C6: confirmed.  On a well-formed state, if some slot of either row holds
`v` then `add(v)` returns `false` and the state is returned unchanged (every
slot, `capacity`, `maxDisplacements`, the salts: the whole state). -/
theorem add_present_is_noop (s : CuckooState) (hWF : WF s) (v : Nat)
    (hpres : (∃ i, s.t0.getD i none = some v) ∨ ∃ i, s.t1.getD i none = some v) :
    ∀ fuel, addFuel (fuel + 1) s v = some (false, s) := by
  have hG := (WF_iff_goodS s).mp hWF
  obtain ⟨_, _, _, hP0, hP1, _⟩ := hG
  have hc : contains s v = true := by
    unfold contains
    rcases hpres with ⟨i, hi⟩ | ⟨i, hi⟩
    · have he := hP0 i v hi
      rw [← he] at hi
      rw [hi]
      simp
    · have he := hP1 i v hi
      rw [← he] at hi
      rw [hi]
      simp
  intro fuel
  simp [addFuel, run, hc]

/-- Witness for C6: a well-formed capacity-2 state holding key 5 in its
row-0 candidate slot; `add(5)` returns `false` and leaves it unchanged. -/
theorem add_present_is_noop_witness :
    addFuel 4 c6demo 5 = some (false, c6demo) :=
  add_present_is_noop c6demo (by decide) 5 (Or.inl ⟨1, by decide⟩) 3

/-- C7: confirmed.  `remove(v)` looks only at the two candidate slots
`(0, hash1 v)` and `(1, hash2 v)`: on `false` the state is unchanged; on
`true` exactly one candidate slot that held `v` is cleared (row 0 preferred)
and every other slot of both rows — and every other field — is unchanged. -/
theorem remove_touches_only_candidate_slots (s : CuckooState) (v : Nat) :
    ((remove s v).1 = false → (remove s v).2 = s) ∧
    ((remove s v).1 = true →
      (s.t0.getD (hash1 s v) none = some v ∧
        (remove s v).2.t0.getD (hash1 s v) none = none ∧
        (∀ j, j ≠ hash1 s v → (remove s v).2.t0.getD j none = s.t0.getD j none) ∧
        (remove s v).2.t1 = s.t1) ∨
      (s.t0.getD (hash1 s v) none ≠ some v ∧
        s.t1.getD (hash2 s v) none = some v ∧
        (remove s v).2.t1.getD (hash2 s v) none = none ∧
        (∀ j, j ≠ hash2 s v → (remove s v).2.t1.getD j none = s.t1.getD j none) ∧
        (remove s v).2.t0 = s.t0)) ∧
    (remove s v).2.capacity = s.capacity ∧
    (remove s v).2.maxDisplacements = s.maxDisplacements ∧
    (remove s v).2.salt1 = s.salt1 ∧ (remove s v).2.salt2 = s.salt2 := by
  simp only [remove]
  split
  · rename_i h0
    have h0e : s.t0.getD (hash1 s v) none = some v := by simpa using h0
    have hb : hash1 s v < s.t0.length := lt_length_of_getD_some h0e
    refine ⟨fun hcon => by simp at hcon, fun _ => Or.inl ⟨h0e, ?_, ?_, rfl⟩,
      rfl, rfl, rfl, rfl⟩
    · exact getD_set_self _ _ _ hb
    · intro j hj
      exact getD_set_ne _ _ (fun he => hj he.symm)
  · split
    · rename_i h0 h1
      have h0e : s.t0.getD (hash1 s v) none ≠ some v := by simpa using h0
      have h1e : s.t1.getD (hash2 s v) none = some v := by simpa using h1
      have hb : hash2 s v < s.t1.length := lt_length_of_getD_some h1e
      refine ⟨fun hcon => by simp at hcon,
        fun _ => Or.inr ⟨h0e, h1e, ?_, ?_, rfl⟩, rfl, rfl, rfl, rfl⟩
      · exact getD_set_self _ _ _ hb
      · intro j hj
        exact getD_set_ne _ _ (fun he => hj he.symm)
    · exact ⟨fun _ => rfl, fun hcon => by simp at hcon, rfl, rfl, rfl, rfl⟩

/-- Witness for C7: removing the absent key 6 returns `false` and leaves
the state unchanged. -/
theorem remove_touches_only_candidate_slots_witness :
    (remove c6demo 6).2 = c6demo :=
  (remove_touches_only_candidate_slots c6demo 6).1 (by decide)

/-- C10: confirmed.  For every state with positive capacity, `hash1` and
`hash2` (both instances of `hashIdx`, i.e. `(H(k) ^ salt) % capacity`)
return an index strictly below `capacity`, so every table and lock access
indexed by them is within bounds. -/
theorem hash_indices_in_range (s : CuckooState) (hcap : 0 < s.capacity) (k : Nat) :
    hash1 s k < s.capacity ∧ hash2 s k < s.capacity :=
  ⟨Nat.mod_lt _ hcap, Nat.mod_lt _ hcap⟩

/-- Witness for C10 on a concrete state. -/
theorem hash_indices_in_range_witness :
    hash1 (mkSet 4 0 (fun k => k) (fun _ => 0)) 7 < 4 ∧
    hash2 (mkSet 4 0 (fun k => k) (fun _ => 0)) 7 < 4 :=
  hash_indices_in_range (mkSet 4 0 (fun k => k) (fun _ => 0)) (by decide) 7

/-! ### Counting lemmas for `size` -/

theorem countP_replicate_none (n : Nat) :
    (List.replicate n (none : Option Nat)).countP (fun o => o.isSome) = 0 := by
  induction n with
  | zero => rfl
  | succ n ih => simp [List.replicate_succ, List.countP_cons, ih]

theorem countP_isSome_set_some (l : List (Option Nat)) :
    ∀ i v, i < l.length → l.getD i none = none →
      (l.set i (some v)).countP (fun o => o.isSome) =
        l.countP (fun o => o.isSome) + 1 := by
  induction l with
  | nil => intro i v h _; exact absurd h (Nat.not_lt_zero i)
  | cons a tl ih =>
    intro i v hlen hget
    cases i with
    | zero =>
      have ha : a = none := hget
      subst ha
      simp [List.countP_cons]
    | succ n =>
      have hlen2 : n < tl.length := by simpa using hlen
      have hget2 : tl.getD n none = none := hget
      simp only [List.set_cons_succ, List.countP_cons, ih n v hlen2 hget2]
      omega

theorem populate_eq_addResults_count :
    ∀ (l : List Nat) (fuel : Nat) (s : CuckooState),
      populateFuel fuel s l =
        (addResults fuel s l).map (fun p => (p.1.count true, p.2)) := by
  intro l
  induction l with
  | nil => intro fuel s; rfl
  | cons v rest ih =>
    intro fuel s
    simp only [populateFuel, addResults]
    cases ha : addFuel fuel s v with
    | none => rfl
    | some p =>
      rcases p with ⟨b, s1⟩
      change (match populateFuel fuel s1 rest with
          | none => none
          | some (n, s2) => some ((if b then 1 else 0) + n, s2)) =
        Option.map (fun p => (p.1.count true, p.2))
          (match addResults fuel s1 rest with
            | none => none
            | some (bs, s2) => some (b :: bs, s2))
      rw [ih fuel s1]
      cases hb : addResults fuel s1 rest with
      | none => rfl
      | some q =>
        rcases q with ⟨bs, s2⟩
        show some ((if b then 1 else 0) + bs.count true, s2) =
          some ((b :: bs).count true, s2)
        cases b <;> simp [List.count_cons, Nat.add_comm]

theorem displaceLoop_step_none (n : Nat) (s : CuckooState) (temp : Nat)
    (h0 : s.t0.getD (hash1 s temp) none = none) :
    displaceLoop (n + 1) s temp =
      (none, { s with t0 := s.t0.set (hash1 s temp) (some temp) }) := by
  simp only [displaceLoop, h0]

theorem displaceLoop_step_some_none (n : Nat) (s : CuckooState) (temp k1 : Nat)
    (h0 : s.t0.getD (hash1 s temp) none = some k1)
    (h1 : s.t1.getD (hash2 s k1) none = none) :
    displaceLoop (n + 1) s temp =
      (none, { s with t0 := s.t0.set (hash1 s temp) (some temp),
                      t1 := s.t1.set (hash2 s k1) (some k1) }) := by
  simp only [displaceLoop, h0, h1]

/-- The S6 scenario proved for every fresh set with capacity at least 2 and
arbitrary time seed, hash function, and `rand()` stream: `populate [5,5,6]`
returns 2 and `size()` is then 2. -/
theorem populate_s6_aux (cap t : Nat) (hF r : Nat → Nat) (fuel : Nat)
    (hcap : 2 ≤ cap) :
    (populateFuel (fuel + 1) (mkSet cap t hF r) [5, 5, 6]).map Prod.fst = some 2 ∧
    (populateFuel (fuel + 1) (mkSet cap t hF r) [5, 5, 6]).map
      (fun p => size p.2) = some 2 := by
  have hcap0 : 0 < cap := by omega
  obtain ⟨m, hm2⟩ : ∃ m, cap / 2 = m + 1 :=
    ⟨cap / 2 - 1, by have := Nat.div_pos hcap (by norm_num); omega⟩
  set s0 : CuckooState := mkSet cap t hF r with hs0
  have ht0 : s0.t0 = List.replicate cap none := rfl
  have ht1 : s0.t1 = List.replicate cap none := rfl
  have hlen0 : s0.t0.length = cap := by rw [ht0, List.length_replicate]
  have hA : hash1 s0 5 < cap := Nat.mod_lt _ hcap0
  have hB : hash2 s0 5 < cap := Nat.mod_lt _ hcap0
  have hC : hash1 s0 6 < cap := Nat.mod_lt _ hcap0
  have hmd : s0.maxDisplacements = m + 1 := by
    rw [show s0.maxDisplacements = cap / 2 from rfl, hm2]
  -- first add(5) places 5 at (0, hash1 5)
  have hcon1 : contains s0 5 = false := by
    unfold contains
    rw [ht0, ht1, getD_replicate, getD_replicate]
    rfl
  have hd1 : displaceLoop (m + 1) s0 5 =
      (none, { s0 with t0 := s0.t0.set (hash1 s0 5) (some 5) }) :=
    displaceLoop_step_none m s0 5 (by rw [ht0, getD_replicate])
  have e1 : addFuel (fuel + 1) s0 5 =
      some (true, { s0 with t0 := s0.t0.set (hash1 s0 5) (some 5) }) := by
    unfold addFuel
    simp only [run, hcon1, Bool.false_eq_true, if_false, hmd, hd1]
  set S1 : CuckooState := { s0 with t0 := s0.t0.set (hash1 s0 5) (some 5) } with hS1
  have hS1t0 : S1.t0 = s0.t0.set (hash1 s0 5) (some 5) := rfl
  have hS1t1 : S1.t1 = List.replicate cap none := rfl
  have hS1len : S1.t0.length = cap := by
    rw [hS1t0, List.length_set, hlen0]
  have hS1A : S1.t0.getD (hash1 s0 5) none = some 5 := by
    rw [hS1t0]
    exact getD_set_self _ _ _ (hlen0 ▸ hA)
  have hh16 : hash1 S1 6 = hash1 s0 6 := rfl
  have hh26 : hash2 S1 6 = hash2 s0 6 := rfl
  have hh25 : hash2 S1 5 = hash2 s0 5 := rfl
  have hmdS1 : S1.maxDisplacements = m + 1 := hmd
  -- second add(5) is a duplicate
  have hcon2 : contains S1 5 = true := by
    unfold contains
    rw [show hash1 S1 5 = hash1 s0 5 from rfl, hS1A]
    simp
  have e2 : addFuel (fuel + 1) S1 5 = some (false, S1) := by
    unfold addFuel
    simp only [run, hcon2, if_true]
  -- add(6): case split on whether its row-0 slot collides with key 5
  by_cases hAC : hash1 s0 6 = hash1 s0 5
  · -- 6 evicts 5, 5 lands in the empty row 1
    have hgetC : S1.t0.getD (hash1 s0 6) none = some 5 := by
      rw [hAC]
      exact hS1A
    have hcon3 : contains S1 6 = false := by
      unfold contains
      rw [hh16, hh26, hS1t1, getD_replicate, hgetC]
      rfl
    have hd3 : displaceLoop (m + 1) S1 6 =
        (none, { S1 with t0 := S1.t0.set (hash1 s0 6) (some 6),
                         t1 := S1.t1.set (hash2 s0 5) (some 5) }) := by
      have := displaceLoop_step_some_none m S1 6 5
        (by rw [hh16]; exact hgetC)
        (by rw [hh25, hS1t1, getD_replicate])
      rw [hh16, hh25] at this
      exact this
    have e3 : addFuel (fuel + 1) S1 6 =
        some (true, { S1 with t0 := S1.t0.set (hash1 s0 6) (some 6),
                              t1 := S1.t1.set (hash2 s0 5) (some 5) }) := by
      unfold addFuel
      simp only [run, hcon3, Bool.false_eq_true, if_false, hmd, hd3]
    set SF : CuckooState := { s0 with
        t0 := (s0.t0.set (hash1 s0 5) (some 5)).set (hash1 s0 6) (some 6),
        t1 := s0.t1.set (hash2 s0 5) (some 5) } with hSF
    have hsize : size SF = 2 := by
      show ((s0.t0.set (hash1 s0 5) (some 5)).set
            (hash1 s0 6) (some 6)).countP (fun o => o.isSome) +
          (s0.t1.set (hash2 s0 5) (some 5)).countP (fun o => o.isSome) = 2
      rw [hAC, List.set_set, ht0, ht1]
      rw [countP_isSome_set_some _ _ _ (by rw [List.length_replicate]; exact hA)
          (getD_replicate cap _),
        countP_isSome_set_some _ _ _ (by rw [List.length_replicate]; exact hB)
          (getD_replicate cap _),
        countP_replicate_none]
    have hp : populateFuel (fuel + 1) s0 [5, 5, 6] = some (2, SF) := by
      simp only [populateFuel, e1, e2, e3]
      rfl
    constructor
    · rw [hp]
      rfl
    · rw [hp]
      show some (size SF) = some 2
      rw [hsize]
  · -- 6 lands in an empty row-0 slot
    have hgetC : S1.t0.getD (hash1 s0 6) none = none := by
      rw [hS1t0, getD_set_ne _ _ (fun he => hAC he.symm), ht0, getD_replicate]
    have hcon3 : contains S1 6 = false := by
      unfold contains
      rw [hh16, hh26, hS1t1, getD_replicate, hgetC]
      rfl
    have hd3 : displaceLoop (m + 1) S1 6 =
        (none, { S1 with t0 := S1.t0.set (hash1 s0 6) (some 6) }) := by
      have := displaceLoop_step_none m S1 6 (by rw [hh16]; exact hgetC)
      rw [hh16] at this
      exact this
    have e3 : addFuel (fuel + 1) S1 6 =
        some (true, { S1 with t0 := S1.t0.set (hash1 s0 6) (some 6) }) := by
      unfold addFuel
      simp only [run, hcon3, Bool.false_eq_true, if_false, hmd, hd3]
    set SF : CuckooState := { s0 with
        t0 := (s0.t0.set (hash1 s0 5) (some 5)).set (hash1 s0 6) (some 6) }
      with hSF
    have hgetC2 : ((List.replicate cap (none : Option Nat)).set
        (hash1 s0 5) (some 5)).getD (hash1 s0 6) none = none := by
      rw [getD_set_ne _ _ (fun he => hAC he.symm), getD_replicate]
    have hsize : size SF = 2 := by
      show ((s0.t0.set (hash1 s0 5) (some 5)).set
            (hash1 s0 6) (some 6)).countP (fun o => o.isSome) +
          s0.t1.countP (fun o => o.isSome) = 2
      rw [ht0, ht1]
      rw [countP_isSome_set_some _ _ _
          (by rw [List.length_set, List.length_replicate]; exact hC) hgetC2,
        countP_isSome_set_some _ _ _ (by rw [List.length_replicate]; exact hA)
          (getD_replicate cap _),
        countP_replicate_none]
    have hp : populateFuel (fuel + 1) s0 [5, 5, 6] = some (2, SF) := by
      simp only [populateFuel, e1, e2, e3]
      rfl
    constructor
    · rw [hp]
      rfl
    · rw [hp]
      show some (size SF) = some 2
      rw [hsize]


/-- C8: confirmed.  `populate(list)` returns exactly the number of elements
of `list` for which the `add` call returned `true` (first conjunct, stated
against the spec-side trace `addResults`; duplicates return `false` and are
therefore not counted), and on any fresh set of capacity ≥ 2
`populate [5,5,6]` returns 2 with `size()` then 2 (scenario S6). -/
theorem populate_counts_successful_adds :
    (∀ (l : List Nat) (fuel : Nat) (s : CuckooState),
      populateFuel fuel s l =
        (addResults fuel s l).map (fun p => (p.1.count true, p.2))) ∧
    ∀ (cap t : Nat) (hF r : Nat → Nat) (fuel : Nat), 2 ≤ cap →
      (populateFuel (fuel + 1) (mkSet cap t hF r) [5, 5, 6]).map Prod.fst =
        some 2 ∧
      (populateFuel (fuel + 1) (mkSet cap t hF r) [5, 5, 6]).map
        (fun p => size p.2) = some 2 :=
  ⟨populate_eq_addResults_count,
    fun cap t hF r fuel hcap => populate_s6_aux cap t hF r fuel hcap⟩

/-- Witness for C8 at capacity 16 (the table geometry of scenario S6),
identity hash, zero salts and `rand()` stream. -/
theorem populate_counts_successful_adds_witness :
    (populateFuel 4 (mkSet 16 0 (fun k => k) (fun _ => 0)) [5, 5, 6]).map
      Prod.fst = some 2 ∧
    (populateFuel 4 (mkSet 16 0 (fun k => k) (fun _ => 0)) [5, 5, 6]).map
      (fun p => size p.2) = some 2 :=
  populate_counts_successful_adds.2 16 0 (fun k => k) (fun _ => 0) 3
    (by norm_num)

end Cuckoo
